import Mathlib

/-!
Shallow embedding of the MedicationSchedule repository:
  - src/script.js  — client state manager (class MedicationTracker, class APIClient)
  - src/worker/worker.js — Cloudflare Worker key-value API handler
JavaScript objects are modelled as association lists in insertion order
(assignment to an existing key updates it in place, a new key is appended,
`delete` removes it); JSON arrays are Lean lists; a JS array of
dose-or-null is `List (Option Dose)`; absent object fields are `Option`.
The remote store is modelled per user: every worker key is prefixed by
`user:{userId}:`, so distinct users address disjoint keys and a single
user's slice `{medications, entries}` captures one request's footprint.
-/

/-- Dose record stored per dose slot: `{ taken: boolean, timestamp: string }` (spec §3). -/
structure Dose where
  taken : Bool
  timestamp : String
deriving DecidableEq, Repr

/-- Medication sub-entry `{ doses: [...] }`: an ordered list of dose-or-null. -/
structure MedEntry where
  doses : List (Option Dose)
deriving DecidableEq, Repr

/-- Day entry: JS object mapping medicationId to its `MedEntry`. -/
abbrev DayEntries := List (String × MedEntry)

/-- Medication from src/script.js addMedication: `{id, name, timesPerDay, frequency}`,
plus `daysOfWeek` only when weekly; `frequency`/`daysOfWeek` may be absent on
legacy data (the code guards with falsy checks). -/
structure Medication where
  id : String
  name : String
  timesPerDay : Nat
  frequency : Option String
  daysOfWeek : Option (List String)
deriving DecidableEq, Repr

/-- One user's slice of the worker's key-value store:
`user:{userId}:medications` and the family `user:{userId}:entries:{date}`. -/
structure Store where
  medications : List Medication
  entries : List (String × DayEntries)
deriving DecidableEq, Repr

/-- Property read `obj[k]` on a JS object: first binding of the key, else absent. -/
def objGet (k : String) : List (String × α) → Option α
  | [] => none
  | (k2, v) :: rest => if k2 = k then some v else objGet k rest

/-- Property write `obj[k] = v`: update in place when present, else append. -/
def objSet (k : String) (v : α) : List (String × α) → List (String × α)
  | [] => [(k, v)]
  | (k2, v2) :: rest => if k2 = k then (k2, v) :: rest else (k2, v2) :: objSet k v rest

/-- Property removal `delete obj[k]`. -/
def objDel (k : String) : List (String × α) → List (String × α)
  | [] => []
  | (k2, v) :: rest => if k2 = k then objDel k rest else (k2, v) :: objDel k rest

theorem objGet_objSet_self (k : String) (v : α) (l : List (String × α)) :
    objGet k (objSet k v l) = some v := by
  induction l with
  | nil => simp [objGet, objSet]
  | cons p rest ih =>
    obtain ⟨k2, v2⟩ := p
    by_cases h : k2 = k <;> simp [objGet, objSet, h, ih]

theorem objGet_objSet_ne (k k2 : String) (v : α) (l : List (String × α)) (h : k2 ≠ k) :
    objGet k2 (objSet k v l) = objGet k2 l := by
  induction l with
  | nil =>
    simp only [objSet, objGet]
    have hk : ¬ k = k2 := fun hh => h hh.symm
    simp [hk]
  | cons p rest ih =>
    obtain ⟨k3, v3⟩ := p
    by_cases h3 : k3 = k
    · subst h3
      have hk : ¬ k3 = k2 := fun hh => h hh.symm
      simp [objGet, objSet, hk]
    · by_cases h2 : k3 = k2 <;> simp [objGet, objSet, h3, h2, h, ih]

theorem objGet_objDel_self (k : String) (l : List (String × α)) :
    objGet k (objDel k l) = none := by
  induction l with
  | nil => simp [objGet, objDel]
  | cons p rest ih =>
    obtain ⟨k2, v⟩ := p
    by_cases h : k2 = k <;> simp [objGet, objDel, h, ih]

theorem objGet_objDel_ne (k k2 : String) (l : List (String × α)) (h : k2 ≠ k) :
    objGet k2 (objDel k l) = objGet k2 l := by
  induction l with
  | nil => simp [objDel]
  | cons p rest ih =>
    obtain ⟨k3, v⟩ := p
    by_cases h3 : k3 = k
    · subst h3
      have hk : ¬ k3 = k2 := fun hh => h hh.symm
      simp [objGet, objDel, hk, ih]
    · by_cases h2 : k3 = k2 <;> simp [objGet, objDel, h3, h2, h, ih]

theorem mem_objSet (k : String) (v : α) (l : List (String × α)) :
    ∀ p ∈ objSet k v l, p = (k, v) ∨ p ∈ l := by
  induction l with
  | nil => simp [objSet]
  | cons q rest ih =>
    obtain ⟨k2, v2⟩ := q
    by_cases h : k2 = k
    · subst h
      intro p hp
      rcases (by simpa [objSet] using hp) with h1 | h1
      · exact Or.inl (by simp [h1])
      · exact Or.inr (by simp [h1])
    · intro p hp
      rcases (by simpa [objSet, h] using hp) with h1 | h1
      · exact Or.inr (by simp [h1])
      · rcases ih p h1 with h2 | h2
        · exact Or.inl h2
        · exact Or.inr (by simp [h2])

theorem mem_objDel (k : String) (l : List (String × α)) :
    ∀ p ∈ objDel k l, p ∈ l := by
  induction l with
  | nil => simp [objDel]
  | cons q rest ih =>
    obtain ⟨k2, v2⟩ := q
    by_cases h : k2 = k
    · intro p hp
      exact List.mem_cons_of_mem _ (ih p (by simpa [objDel, h] using hp))
    · intro p hp
      rcases (by simpa [objDel, h] using hp) with h1 | h1
      · simp [h1]
      · exact List.mem_cons_of_mem _ (ih p h1)

theorem objSet_ne_nil (k : String) (v : α) (l : List (String × α)) :
    objSet k v l ≠ [] := by
  cases l with
  | nil => simp [objSet]
  | cons p rest =>
    obtain ⟨k2, v2⟩ := p
    by_cases h : k2 = k <;> simp [objSet, h]

/-- Idiom `while (doses.length <= idx) doses.push(null)` used by both the worker
(POST /api/entry, DELETE /api/entry) and the client (trackMedicationDose):
pad the dose list with nulls until index `i` exists. -/
def padTo (n : Nat) (l : List (Option Dose)) : List (Option Dose) :=
  l ++ List.replicate (n - l.length) none

/-- Pad so index `i` exists, then assign `doses[i] = v`. -/
def padSet (i : Nat) (v : Option Dose) (l : List (Option Dose)) : List (Option Dose) :=
  (padTo (i + 1) l).set i v

theorem length_padTo (n : Nat) (l : List (Option Dose)) :
    (padTo n l).length = max l.length n := by
  simp [padTo]
  omega

theorem lt_length_padTo (i : Nat) (l : List (Option Dose)) :
    i < (padTo (i + 1) l).length := by
  rw [length_padTo]
  omega

theorem padSet_get_self (i : Nat) (v : Option Dose) (l : List (Option Dose)) :
    (padSet i v l)[i]? = some v := by
  simpa [padSet] using List.getElem?_set_self (lt_length_padTo i l)

theorem padSet_get_lt (i j : Nat) (v : Option Dose) (l : List (Option Dose))
    (hne : j ≠ i) (hj : j < l.length) : (padSet i v l)[j]? = l[j]? := by
  rw [padSet, List.getElem?_set_ne (fun h => hne h.symm)]
  simp [padTo, List.getElem?_append_left hj]

/-!
Worker request handler (src/worker/worker.js `fetch`). Each route is a
function from the user's store slice and the request body to the HTTP
response plus the updated store. Falsy checks `!x` on required string
fields are `x = ""` (absent fields of typed bodies are `Option`);
`doseIndex || 0` is `Option.getD doseIndex 0` (JS `0 || 0 = 0` agrees);
`timestamp || new Date().toISOString()` takes the parameter `now` when
`timestamp` is absent or empty.
-/

/-- HTTP response of the worker: `jsonResponse({success:true,...})` or
`errorResponse(message, status)`. -/
inductive WResp where
  | success
  | error (status : Nat) (msg : String)
deriving DecidableEq, Repr

/-- Assembled body of GET /api/data: `{ medications, entries }`. -/
structure GetDataResp where
  medications : List Medication
  entries : List (String × DayEntries)
deriving DecidableEq, Repr

/-- Route GET /api/data: read the medications key (missing → `[]`) and
list-scan every `user:{userId}:entries:{date}` key; each stored value is a
nonempty JSON string, so every stored date appears in the result. -/
def getData (s : Store) : GetDataResp :=
  { medications := s.medications, entries := s.entries }

/-- Route POST /api/medications: replace the medications array wholesale
(the typed body is always an array, so the `Array.isArray` guard passes). -/
def postMedications (s : Store) (medications : List Medication) : WResp × Store :=
  (.success, { s with medications := medications })

/-- Route POST /api/entry: upsert one dose at `{date, medicationId, doseIndex}`,
growing the dose list with nulls as needed.  Validation rejects a falsy
`date` (empty string); `medicationId` and `taken` are only checked against
`undefined`, which a typed body always has. -/
def postEntry (s : Store) (date medicationId : String) (taken : Bool)
    (timestamp : Option String) (doseIndex : Option Nat) (now : String) : WResp × Store :=
  if date = "" then
    (.error 400 "date, medicationId, and taken are required", s)
  else
    let entries0 := (objGet date s.entries).getD []
    let medEntry0 := (objGet medicationId entries0).getD { doses := [] }
    let doseIdx := doseIndex.getD 0
    let ts := match timestamp with
      | none => now
      | some t => if t = "" then now else t
    let doses1 := padSet doseIdx (some { taken := taken, timestamp := ts }) medEntry0.doses
    let entries1 := objSet medicationId { doses := doses1 } entries0
    (.success, { s with entries := objSet date entries1 s.entries })

/-- Route PUT /api/entry: update only the timestamp of an existing dose;
404 when the date entry, the medication sub-entry, or the dose slot is
absent (`!doses[doseIdx]` is falsy both for out-of-range and for null). -/
def putEntry (s : Store) (date medicationId timestamp : String)
    (doseIndex : Option Nat) : WResp × Store :=
  if date = "" ∨ medicationId = "" ∨ timestamp = "" then
    (.error 400 "date, medicationId, and timestamp are required", s)
  else
    match objGet date s.entries with
    | none => (.error 404 "Entry not found", s)
    | some entries0 =>
      match objGet medicationId entries0 with
      | none => (.error 404 "Medication entry not found", s)
      | some medEntry0 =>
        let doseIdx := doseIndex.getD 0
        match (medEntry0.doses[doseIdx]?).getD none with
        | none => (.error 404 "Dose entry not found", s)
        | some d =>
          let doses1 := medEntry0.doses.set doseIdx
            (some { taken := d.taken, timestamp := timestamp })
          let entries1 := objSet medicationId { doses := doses1 } entries0
          (.success, { s with entries := objSet date entries1 s.entries })

/-- Route DELETE /api/medication/{id}: filter the medication out of the list
and write the list back; entry keys are deliberately left untouched
("leave entries to preserve history").  The path segment `{id}` is falsy
only when empty. -/
def deleteMedicationW (s : Store) (medicationId : String) : WResp × Store :=
  if medicationId = "" then
    (.error 400 "medicationId is required", s)
  else
    (.success, { s with medications := s.medications.filter (fun m => m.id ≠ medicationId) })

/-- Route DELETE /api/entry: null the addressed dose slot (JS index
assignment past the end grows the array; serialized holes are nulls, and
`some(d => d !== null)` is false on both holes and nulls, which `padSet`
with `none` matches observationally); drop the medication sub-entry when
no non-null dose remains; delete the whole day key when the day object
becomes empty; succeed when the date or medication is already gone. -/
def deleteEntryW (s : Store) (date medicationId : String) (doseIndex : Nat) : WResp × Store :=
  if date = "" ∨ medicationId = "" then
    (.error 400 "date, medicationId, and doseIndex are required", s)
  else
    match objGet date s.entries with
    | none => (.success, s)
    | some entries0 =>
      match objGet medicationId entries0 with
      | none => (.success, s)
      | some medEntry0 =>
        let doses1 := padSet doseIndex none medEntry0.doses
        let entries1 :=
          if doses1.any (fun d => d.isSome) then objSet medicationId { doses := doses1 } entries0
          else objDel medicationId entries0
        if entries1 = [] then (.success, { s with entries := objDel date s.entries })
        else (.success, { s with entries := objSet date entries1 s.entries })

/-- Dose slot visible through the store at (date, medicationId, index):
`none` when the path to the slot is missing, `some none` when the slot
holds null. -/
def storeDoseAt (s : Store) (date medicationId : String) (i : Nat) : Option (Option Dose) :=
  match objGet date s.entries with
  | none => none
  | some de =>
    match objGet medicationId de with
    | none => none
    | some me => me.doses[i]?

/-!
Client state manager (src/script.js, class MedicationTracker). In-memory
state is the medication list plus `this.entries`, keyed user → dateKey →
medicationId → `{doses: [...]}`.  Each mutating method is modelled after
the user confirmed any `confirm(...)` dialog; the outcome of the awaited
remote call is the Boolean parameter `remoteOk` (`false` means the
`await` threw and control reached the `catch` block).  The second
component of the result records whether `alert(...)` showed a user-facing
message during the call.
-/

/-- Per-user client entries: dateKey → day entry. -/
abbrev UserEntries := List (String × DayEntries)

/-- Client `this.entries`: user → dateKey → medicationId → MedEntry. -/
abbrev ClientEntries := List (String × UserEntries)

/-- In-memory client state relevant to the mutating operations:
`this.medications` and `this.entries`. -/
structure ClientState where
  medications : List Medication
  entries : ClientEntries
deriving DecidableEq, Repr

/-- Dose slot visible in client state at (user, dateKey, medicationId, index). -/
def clientDoseAt (s : ClientState) (user dateKey medicationId : String)
    (i : Nat) : Option (Option Dose) :=
  match objGet user s.entries with
  | none => none
  | some ue =>
    match objGet dateKey ue with
    | none => none
    | some de =>
      match objGet medicationId de with
      | none => none
      | some me => me.doses[i]?

/-- Method addMedication (src/script.js:448): push the new medication, await
the remote saves; the catch block pops it back off and alerts. -/
def addMedicationClient (s : ClientState) (newMed : Medication)
    (remoteOk : Bool) : ClientState × Bool :=
  let s1 : ClientState := { s with medications := s.medications ++ [newMed] }
  if remoteOk then (s1, false)
  else ({ s1 with medications := s1.medications.dropLast }, true)

/-- Method deleteMedication (src/script.js:506): filter the medication out of
the local list, await the remote deletes; the catch block only alerts —
it does not restore the removed medication. -/
def deleteMedicationClient (s : ClientState) (medicationId : String)
    (remoteOk : Bool) : ClientState × Bool :=
  let s1 : ClientState :=
    { s with medications := s.medications.filter (fun m => m.id ≠ medicationId) }
  if remoteOk then (s1, false) else (s1, true)

/-- Method trackMedicationDose: create the user/date/medication levels as
needed, pad the dose list, set slot `doseIndex` to `{taken, timestamp}`,
await the remote save; the catch block sets the same slot back to null
(whatever it held before) and alerts. -/
def trackMedicationDose (s : ClientState) (user dateKey medicationId : String)
    (doseIndex : Nat) (taken : Bool) (timestamp : String)
    (remoteOk : Bool) : ClientState × Bool :=
  let ue := (objGet user s.entries).getD []
  let de := (objGet dateKey ue).getD []
  let me := (objGet medicationId de).getD { doses := [] }
  let doses1 := padSet doseIndex (some { taken := taken, timestamp := timestamp }) me.doses
  let putDoses := fun (ds : List (Option Dose)) =>
    objSet user (objSet dateKey (objSet medicationId { doses := ds } de) ue) s.entries
  if remoteOk then
    ({ s with entries := putDoses doses1 }, false)
  else
    ({ s with entries := putDoses (doses1.set doseIndex none) }, true)

/-- Method updateTimestamp (src/script.js:745): alert and return unchanged
when no dose exists at the path; otherwise overwrite that dose's
timestamp, await the remote update; the catch block only alerts — the new
timestamp stays in local state. -/
def updateTimestampClient (s : ClientState) (user dateKey medicationId : String)
    (doseIndex : Nat) (timestamp : String) (remoteOk : Bool) : ClientState × Bool :=
  match objGet user s.entries with
  | none => (s, true)
  | some ue =>
    match objGet dateKey ue with
    | none => (s, true)
    | some de =>
      match objGet medicationId de with
      | none => (s, true)
      | some me =>
        match (me.doses[doseIndex]?).getD none with
        | none => (s, true)
        | some d =>
          let d1 : Dose := { taken := d.taken, timestamp := timestamp }
          let me1 : MedEntry := { doses := me.doses.set doseIndex (some d1) }
          let entries1 := objSet user (objSet dateKey (objSet medicationId me1 de) ue) s.entries
          let s1 : ClientState := { s with entries := entries1 }
          if remoteOk then (s1, false) else (s1, true)

/-- Method clearMedicationStatus: return unchanged when no dose exists at the
path; otherwise null the slot, drop the medication sub-entry when all its
doses are null, drop the day entry when it becomes empty, await the remote
delete; the catch block only alerts — the cleared state stays. -/
def clearMedicationStatusClient (s : ClientState) (user dateKey medicationId : String)
    (doseIndex : Nat) (remoteOk : Bool) : ClientState × Bool :=
  match objGet user s.entries with
  | none => (s, false)
  | some ue =>
    match objGet dateKey ue with
    | none => (s, false)
    | some de =>
      match objGet medicationId de with
      | none => (s, false)
      | some me =>
        match (me.doses[doseIndex]?).getD none with
        | none => (s, false)
        | some _ =>
          let doses1 := me.doses.set doseIndex none
          let de2 :=
            if doses1.any (fun d => d.isSome) then objSet medicationId { doses := doses1 } de
            else objDel medicationId (objSet medicationId { doses := doses1 } de)
          let ue1 := if de2 = [] then objDel dateKey ue else objSet dateKey de2 ue
          let s1 : ClientState := { s with entries := objSet user ue1 s.entries }
          if remoteOk then (s1, false) else (s1, true)

/-- Method shouldTrackMedication (src/script.js:261): a medication with a
falsy `frequency` is tracked; `daily` always; `every-other-day` on even
days of month; `weekly` when `daysOfWeek` contains the weekday's string;
unknown frequencies always.  The date contributes `getDate()` (day of
month, 1–31) and `getDay()` (weekday, 0 = Sunday … 6 = Saturday). -/
def shouldTrackMedication (med : Medication) (dayOfMonth : Nat)
    (dayOfWeek : Fin 7) : Bool :=
  match med.frequency with
  | none => true
  | some f =>
    if f = "" then true
    else if f = "daily" then true
    else if f = "every-other-day" then dayOfMonth % 2 == 0
    else if f = "weekly" then (med.daysOfWeek.getD []).contains (toString dayOfWeek.val)
    else true

/-!
Statistics view (src/script.js renderStats, lines 830–879). The method
walks `this.entries` dynamically: `Object.keys(this.entries)` is bound to
`dateKey` and `this.entries[dateKey][medId].doses` is read — although
`this.entries` is keyed by user (constructor comment, and every other
consumer reads `this.entries[user][dateKey]`).  To keep that dynamic
access faithful, the walked value is modelled as an untyped JSON value.
-/

/-- Untyped JavaScript/JSON value for the dynamic property accesses of
renderStats; `undefined` and `null` are merged (both falsy, neither an
array nor an object). -/
inductive JVal where
  | null
  | bool (b : Bool)
  | str (s : String)
  | num (n : Nat)
  | arr (elems : List JVal)
  | obj (fields : List (String × JVal))

/-- JS truthiness of a value. -/
def jTruthy : JVal → Bool
  | .null => false
  | .bool b => b
  | .str s => s ≠ ""
  | .num n => n ≠ 0
  | .arr _ => true
  | .obj _ => true

/-- Property read `v.k` on a dynamic value: `undefined` (here `.null`) when
absent or when `v` is not an object. -/
def jGet (k : String) : JVal → JVal
  | .obj fields => (objGet k fields).getD .null
  | _ => .null

/-- Fold of renderStats over one `doses` array:
`doses.forEach(dose => { if (dose) { totalEntries++; if (dose.taken) totalTaken++; else totalMissed++; } })`. -/
def renderStatsDoses (acc : Nat × Nat × Nat) (doses : List JVal) : Nat × Nat × Nat :=
  doses.foldl
    (fun a dose =>
      if jTruthy dose then
        if jTruthy (jGet "taken" dose) then (a.1 + 1, a.2.1 + 1, a.2.2)
        else (a.1 + 1, a.2.1, a.2.2 + 1)
      else a)
    acc

/-- Totals `(totalEntries, totalTaken, totalMissed)` computed by renderStats:
the outer loop binds each top-level key of `this.entries` as `dateKey`, the
inner loop binds each key of that value as `medId`, and only a truthy
`medEntry.doses` array contributes. -/
def renderStatsTotals (entries : JVal) : Nat × Nat × Nat :=
  match entries with
  | .obj topFields =>
    topFields.foldl
      (fun acc p =>
        match p.2 with
        | .obj dayFields =>
          dayFields.foldl
            (fun acc2 q =>
              let doses := jGet "doses" q.2
              if jTruthy doses then
                match doses with
                | .arr ds => renderStatsDoses acc2 ds
                | _ => acc2
              else acc2)
            acc
        | _ => acc)
      (0, 0, 0)
  | _ => (0, 0, 0)

/-- Rounded percentage `Math.round((taken / total) * 100)` with the code's
guard `total > 0 ? ... : 0`; `Math.round x = ⌊x + 1/2⌋` for the
non-negative ratios that occur here. -/
def adherencePercent (taken total : Nat) : Nat :=
  if total > 0 then (200 * taken + total) / (2 * total) else 0

/-- Adherence rate displayed by renderStats on the client's entries value. -/
def renderStatsAdherence (entries : JVal) : Nat :=
  let t := renderStatsTotals entries
  adherencePercent t.2.1 t.1

/-- Encoding of a typed medication sub-entry as the JSON value the client
actually holds. -/
def medEntryToJVal (me : MedEntry) : JVal :=
  .obj [("doses", .arr (me.doses.map (fun d =>
    match d with
    | none => .null
    | some dose => .obj [("taken", .bool dose.taken), ("timestamp", .str dose.timestamp)])))]

/-- Encoding of a day entry (medicationId → MedEntry). -/
def dayToJVal (de : DayEntries) : JVal :=
  .obj (de.map (fun p => (p.1, medEntryToJVal p.2)))

/-- Encoding of one user's dateKey → day mapping. -/
def userEntriesToJVal (ue : UserEntries) : JVal :=
  .obj (ue.map (fun p => (p.1, dayToJVal p.2)))

/-- Encoding of the client's user-keyed `this.entries`. -/
def clientEntriesToJVal (ce : ClientEntries) : JVal :=
  .obj (ce.map (fun p => (p.1, userEntriesToJVal p.2)))

/-- Count of recorded (non-null) doses in the client's entries mapping,
across all users, dates and medications. -/
def recordedDoses (ce : ClientEntries) : Nat :=
  (ce.map (fun u => (u.2.map (fun d => (d.2.map
    (fun m => m.2.doses.countP (fun o => o.isSome))).sum)).sum)).sum

/-- Count of recorded doses marked taken in the client's entries mapping. -/
def takenDoses (ce : ClientEntries) : Nat :=
  (ce.map (fun u => (u.2.map (fun d => (d.2.map
    (fun m => m.2.doses.countP (fun o =>
      match o with
      | some dose => dose.taken
      | none => false))).sum)).sum)).sum

/-!
Page bootstrap (src/script.js). The script's top level defines exactly the
globals `API_BASE_URL`, `USERS`, `getUserIdForUser`, `APIClient` and
`MedicationTracker`, then runs `new MedicationTracker()` on
DOMContentLoaded; the `APIClient` constructor body is
`this.baseURL = baseURL; this.userId = getUserId();` where `getUserId` is
resolved against the page's global scope (the same-named helper in
src/worker/worker.js lives in the Worker, not in the page).
-/

/-- Top-level bindings script.js adds to the page's global scope. -/
def scriptGlobals : List String :=
  ["API_BASE_URL", "USERS", "getUserIdForUser", "APIClient", "MedicationTracker"]

/-- Runtime error raised by an unresolvable identifier. -/
inductive JsError where
  | referenceError (name : String)
deriving DecidableEq, Repr

/-- Fields the APIClient constructor assigns. -/
structure APIClientObj where
  baseURL : String
  userId : String
deriving DecidableEq, Repr

/-- Constructor `new APIClient(baseURL)` (src/script.js:15): evaluating the
call `getUserId()` first resolves the name in the global scope and throws
a ReferenceError when it is not bound. -/
def newAPIClient (baseURL : String) : Except JsError APIClientObj :=
  if scriptGlobals.contains "getUserId" then
    .ok { baseURL := baseURL, userId := "" }
  else
    .error (.referenceError "getUserId")

/-- Constructor `new MedicationTracker()` (src/script.js:90): its first
statement is `this.api = new APIClient(API_BASE_URL)`; an exception there
propagates out of the constructor before any state is set up. -/
def newMedicationTracker : Except JsError ClientState :=
  match newAPIClient "https://medication-tracker-api.seonkim1003.workers.dev" with
  | .error e => .error e
  | .ok _ => .ok { medications := [], entries := [] }

/-!
Reachability of worker store states: one request of any route applied to a
user's store slice.
-/

/-- One worker request touching a single user's store slice, with its body. -/
inductive WOp where
  | opGetData
  | opPostMedications (medications : List Medication)
  | opPostEntry (date medicationId : String) (taken : Bool)
      (timestamp : Option String) (doseIndex : Option Nat) (now : String)
  | opPutEntry (date medicationId timestamp : String) (doseIndex : Option Nat)
  | opDeleteMedication (medicationId : String)
  | opDeleteEntry (date medicationId : String) (doseIndex : Nat)

/-- Store after handling one request. -/
def applyW : WOp → Store → Store
  | .opGetData, s => s
  | .opPostMedications meds, s => (postMedications s meds).2
  | .opPostEntry date medId taken ts di now, s => (postEntry s date medId taken ts di now).2
  | .opPutEntry date medId ts di, s => (putEntry s date medId ts di).2
  | .opDeleteMedication medId, s => (deleteMedicationW s medId).2
  | .opDeleteEntry date medId di, s => (deleteEntryW s date medId di).2

/-- Medication sub-entry holding at least one non-null dose. -/
def medHasDose (me : MedEntry) : Bool :=
  me.doses.any (fun d => d.isSome)

/-- Day entry in which at least one medication sub-entry has a non-null dose. -/
def dayHasDose (de : DayEntries) : Bool :=
  de.any (fun q => medHasDose q.2)

/-- Inductive shape of every entry value the worker ever writes: the day
object is nonempty and every medication sub-entry in it keeps at least one
non-null dose. -/
def entriesTight (s : Store) : Prop :=
  ∀ p ∈ s.entries, p.2 ≠ [] ∧ ∀ q ∈ p.2, medHasDose q.2 = true

/-- Store slices reachable from an empty slice by worker requests. -/
inductive Reachable : Store → Prop
  | init : Reachable { medications := [], entries := [] }
  | step (o : WOp) (s : Store) : Reachable s → Reachable (applyW o s)

/-- Status code carried by a worker response (200 for a success body). -/
def WResp.statusCode : WResp → Nat
  | .success => 200
  | .error st _ => st

theorem objGet_mem (k : String) (v : α) (l : List (String × α))
    (h : objGet k l = some v) : (k, v) ∈ l := by
  induction l with
  | nil => simp [objGet] at h
  | cons p rest ih =>
    obtain ⟨k2, v2⟩ := p
    by_cases h2 : k2 = k
    · subst h2
      simp [objGet] at h
      simp [h]
    · simp [objGet, h2] at h
      exact List.mem_cons_of_mem _ (ih h)

theorem length_padSet (i : Nat) (v : Option Dose) (l : List (Option Dose)) :
    (padSet i v l).length = max l.length (i + 1) := by
  simp [padSet, length_padTo]

theorem any_isSome_of_getElem? (l : List (Option Dose)) (i : Nat) (d : Dose)
    (h : l[i]? = some (some d)) : l.any (fun o => o.isSome) = true := by
  rw [List.any_eq_true]
  exact ⟨some d, List.getElem?_mem h, rfl⟩

/-- Example medication used to instantiate proved theorems. -/
def exMed : Medication :=
  { id := "m1", name := "Aspirin", timesPerDay := 2,
    frequency := some "daily", daysOfWeek := none }

/-- Example dose record. -/
def exDose : Dose := { taken := true, timestamp := "2024-01-06T08:00:00Z" }

/-- Example worker store slice holding one medication and one recorded dose. -/
def exStore : Store :=
  { medications := [exMed],
    entries := [("2024-01-06", [("m1", { doses := [some exDose] })])] }

/-- C2: the client's optimistic add-medication, when the remote save fails,
leaves `this.medications` exactly as it was before the add — the catch
block pops the element the operation pushed, so length, contents and order
are unchanged (and the failure is surfaced by an alert). -/
theorem addMedication_remote_failure_restores_list (s : ClientState) (newMed : Medication) :
    (addMedicationClient s newMed false).1.medications = s.medications
    ∧ (addMedicationClient s newMed false).2 = true := by
  constructor
  · simp [addMedicationClient]
  · simp [addMedicationClient]

/-- C6: shouldTrackMedication follows the frequency rule exactly: `daily` is
always scheduled, `every-other-day` exactly on even days of month, `weekly`
exactly when `daysOfWeek` contains the weekday index as a string; with
daysOfWeek = ["1","3"] it is scheduled exactly on weekday 1 (Monday) and
weekday 3 (Wednesday) under the JS getDay convention 0 = Sunday. -/
theorem shouldTrackMedication_frequency_rules (med : Medication) (dom : Nat)
    (dow : Fin 7) (ds : List String) :
    (shouldTrackMedication { med with frequency := some "daily" } dom dow = true)
    ∧ (shouldTrackMedication { med with frequency := some "every-other-day" } dom dow
        = (dom % 2 == 0))
    ∧ (shouldTrackMedication
        { med with frequency := some "weekly", daysOfWeek := some ds } dom dow
        = ds.contains (toString dow.val))
    ∧ (shouldTrackMedication
        { med with frequency := some "weekly", daysOfWeek := some ["1", "3"] } dom dow = true
        ↔ dow.val = 1 ∨ dow.val = 3) := by
  refine ⟨by simp [shouldTrackMedication], by simp [shouldTrackMedication],
    by simp [shouldTrackMedication], ?_⟩
  fin_cases dow <;> simp [shouldTrackMedication] <;> decide

/-- C10: the APIClient constructor calls `getUserId()`, but script.js defines
no global of that name (only `getUserIdForUser`), so every `new APIClient(...)`
throws a ReferenceError, and so does `new MedicationTracker()`, whose first
statement constructs an APIClient. -/
theorem newAPIClient_throws_referenceError :
    (∀ baseURL : String, newAPIClient baseURL = .error (.referenceError "getUserId"))
    ∧ newMedicationTracker = .error (.referenceError "getUserId") := by
  constructor
  · intro baseURL
    simp [newAPIClient, scriptGlobals]
  · simp [newMedicationTracker, newAPIClient, scriptGlobals]

/-- C3: for every valid POST /api/entry payload, a subsequent GET /api/data
for the same user exposes a dose object at the same date, medicationId and
doseIndex whose `taken` and `timestamp` equal the posted values exactly
(the handler stores `Boolean(taken)` and the non-empty posted timestamp,
neither of which alters a well-typed payload). -/
theorem postEntry_then_getData_preserves_dose (s : Store) (date medicationId : String)
    (taken : Bool) (ts : String) (di : Nat) (now : String)
    (hd : date ≠ "") (hts : ts ≠ "") :
    (postEntry s date medicationId taken (some ts) (some di) now).1 = .success
    ∧ ((objGet date (getData (postEntry s date medicationId taken (some ts) (some di) now).2).entries).bind
        (fun de => (objGet medicationId de).bind (fun me => me.doses[di]?)))
      = some (some { taken := taken, timestamp := ts }) := by
  constructor
  · simp [postEntry, hd]
  · simp [postEntry, getData, hd, hts, objGet_objSet_self, padSet_get_self]

/-- Witness instantiating the POST-then-GET round trip on a concrete store. -/
theorem postEntry_then_getData_preserves_dose_witness :
    ((objGet "2024-01-07"
        (getData (postEntry exStore "2024-01-07" "m1" false (some "2024-01-07T21:00:00Z")
          (some 1) "nowIso").2).entries).bind
      (fun de => (objGet "m1" de).bind (fun me => me.doses[1]?)))
      = some (some { taken := false, timestamp := "2024-01-07T21:00:00Z" }) :=
  (postEntry_then_getData_preserves_dose exStore "2024-01-07" "m1" false
    "2024-01-07T21:00:00Z" 1 "nowIso" (by decide) (by decide)).2

/-- C8: DELETE /api/medication/{id} rewrites only the medications key: the
result filters out exactly the medications with the given id, every entry
key (dose history, including history for the deleted id) is untouched, and
when the id is absent the write is the unchanged list with a success
response. -/
theorem deleteMedicationW_removes_only_that_id (s : Store) (medicationId : String)
    (h : medicationId ≠ "") :
    (deleteMedicationW s medicationId).1 = .success
    ∧ (deleteMedicationW s medicationId).2.entries = s.entries
    ∧ (deleteMedicationW s medicationId).2.medications
        = s.medications.filter (fun m => m.id ≠ medicationId)
    ∧ ((∀ m ∈ s.medications, m.id ≠ medicationId) →
        (deleteMedicationW s medicationId).2.medications = s.medications) := by
  refine ⟨by simp [deleteMedicationW, h], by simp [deleteMedicationW, h],
    by simp [deleteMedicationW, h], ?_⟩
  intro hall
  simp only [deleteMedicationW, h, if_false]
  rw [List.filter_eq_self]
  intro m hm
  simpa using hall m hm

/-- Witness instantiating medication deletion on a concrete store: the entry
history survives and the list drops the medication. -/
theorem deleteMedicationW_removes_only_that_id_witness :
    (deleteMedicationW exStore "m1").2.entries = exStore.entries
    ∧ (deleteMedicationW exStore "m1").2.medications = [] :=
  ⟨(deleteMedicationW_removes_only_that_id exStore "m1" (by decide)).2.1,
   by
    rw [(deleteMedicationW_removes_only_that_id exStore "m1" (by decide)).2.2.1]
    decide⟩

/-- C4: for a well-formed PUT /api/entry request, when the referenced
date-entry, medication sub-entry or dose slot is absent the handler
returns 404 and leaves the store untouched (creating nothing); when the
dose exists it rewrites exactly that dose's timestamp — the medication
list and every other dose slot of every date are unchanged. -/
theorem putEntry_notFound_or_timestamp_only (s : Store) (date medicationId ts : String)
    (di : Nat) (hd : date ≠ "") (hm : medicationId ≠ "") (hts : ts ≠ "") :
    ((storeDoseAt s date medicationId di).getD none = none →
      (putEntry s date medicationId ts (some di)).1.statusCode = 404
      ∧ (putEntry s date medicationId ts (some di)).2 = s)
    ∧ (∀ d : Dose, storeDoseAt s date medicationId di = some (some d) →
      (putEntry s date medicationId ts (some di)).1 = .success
      ∧ storeDoseAt (putEntry s date medicationId ts (some di)).2 date medicationId di
          = some (some { taken := d.taken, timestamp := ts })
      ∧ (putEntry s date medicationId ts (some di)).2.medications = s.medications
      ∧ ∀ (date2 medicationId2 : String) (j : Nat),
          ¬ (date2 = date ∧ medicationId2 = medicationId ∧ j = di) →
          storeDoseAt (putEntry s date medicationId ts (some di)).2 date2 medicationId2 j
            = storeDoseAt s date2 medicationId2 j) := by
  constructor
  · intro habs
    cases h1 : objGet date s.entries with
    | none => simp [putEntry, hd, hm, hts, h1, WResp.statusCode]
    | some de =>
      cases h2 : objGet medicationId de with
      | none => simp [putEntry, hd, hm, hts, h1, h2, WResp.statusCode]
      | some me =>
        have habs2 : (me.doses[di]?).getD none = none := by
          simpa [storeDoseAt, h1, h2] using habs
        simp [putEntry, hd, hm, hts, h1, h2, habs2, WResp.statusCode]
  · intro d hdose
    cases h1 : objGet date s.entries with
    | none => simp [storeDoseAt, h1] at hdose
    | some de =>
      cases h2 : objGet medicationId de with
      | none => simp [storeDoseAt, h1, h2] at hdose
      | some me =>
        have h3 : me.doses[di]? = some (some d) := by
          simpa [storeDoseAt, h1, h2] using hdose
        have hlt : di < me.doses.length := by
          rcases List.getElem?_eq_some_iff.1 h3 with ⟨hl, _⟩
          exact hl
        refine ⟨by simp [putEntry, hd, hm, hts, h1, h2, h3], ?_, ?_, ?_⟩
        · simp [putEntry, hd, hm, hts, h1, h2, h3, storeDoseAt,
            objGet_objSet_self, List.getElem?_set_self hlt]
        · simp [putEntry, hd, hm, hts, h1, h2, h3]
        · intro date2 medicationId2 j hne
          by_cases hdate : date2 = date
          · subst hdate
            by_cases hmed : medicationId2 = medicationId
            · subst hmed
              have hj : j ≠ di := by
                intro hji
                exact hne ⟨rfl, rfl, hji⟩
              simp [putEntry, hd, hm, hts, h1, h2, h3, storeDoseAt,
                objGet_objSet_self, List.getElem?_set_ne (fun hh => hj hh.symm)]
            · simp [putEntry, hd, hm, hts, h1, h2, h3, storeDoseAt,
                objGet_objSet_self, objGet_objSet_ne _ _ _ _ hmed]
          · simp [putEntry, hd, hm, hts, h1, h2, h3, storeDoseAt,
              objGet_objSet_ne _ _ _ _ hdate]

/-- Witness instantiating PUT /api/entry on a concrete store, both on the
absent dose slot (index 5, 404 and unchanged store) and on the existing
dose (index 0, timestamp rewritten). -/
theorem putEntry_notFound_or_timestamp_only_witness :
    ((putEntry exStore "2024-01-06" "m1" "2024-01-06T10:30:00Z" (some 5)).1.statusCode = 404
      ∧ (putEntry exStore "2024-01-06" "m1" "2024-01-06T10:30:00Z" (some 5)).2 = exStore)
    ∧ storeDoseAt (putEntry exStore "2024-01-06" "m1" "2024-01-06T10:30:00Z" (some 0)).2
        "2024-01-06" "m1" 0
      = some (some { taken := true, timestamp := "2024-01-06T10:30:00Z" }) :=
  ⟨(putEntry_notFound_or_timestamp_only exStore "2024-01-06" "m1" "2024-01-06T10:30:00Z" 5
      (by decide) (by decide) (by decide)).1 (by decide),
   ((putEntry_notFound_or_timestamp_only exStore "2024-01-06" "m1" "2024-01-06T10:30:00Z" 0
      (by decide) (by decide) (by decide)).2 exDose (by decide)).2.1⟩

/-- C5: a well-formed DELETE /api/entry succeeds, leaves no recorded dose at
the addressed slot, drops the medication sub-entry when its doses hold no
non-null dose any more, deletes the whole day key when the day object
becomes empty (so GET /api/data omits that date), and repeating the same
delete still succeeds. -/
theorem deleteEntryW_nulls_slot_and_cascades (s : Store) (date medicationId : String)
    (di : Nat) (hd : date ≠ "") (hm : medicationId ≠ "") :
    (deleteEntryW s date medicationId di).1 = .success
    ∧ (deleteEntryW (deleteEntryW s date medicationId di).2 date medicationId di).1 = .success
    ∧ (storeDoseAt (deleteEntryW s date medicationId di).2 date medicationId di).getD none = none
    ∧ (∀ (de : DayEntries) (me : MedEntry),
        objGet date s.entries = some de → objGet medicationId de = some me →
        (padSet di none me.doses).any (fun o => o.isSome) = false →
        ((objGet date (deleteEntryW s date medicationId di).2.entries).bind
            (objGet medicationId) = none
          ∧ (objDel medicationId de = [] →
              objGet date (getData (deleteEntryW s date medicationId di).2).entries = none))) := by
  have hcond : ¬ (date = "" ∨ medicationId = "") := by simp [hd, hm]
  have hsucc : ∀ s2 : Store, (deleteEntryW s2 date medicationId di).1 = .success := by
    intro s2
    cases h1 : objGet date s2.entries with
    | none => simp [deleteEntryW, hcond, h1]
    | some de2 =>
      cases h2 : objGet medicationId de2 with
      | none => simp [deleteEntryW, hcond, h1, h2]
      | some me2 =>
        simp only [deleteEntryW, hcond, if_false, h1, h2]
        split <;> (split <;> rfl)
  refine ⟨hsucc s, hsucc _, ?_, ?_⟩
  · cases h1 : objGet date s.entries with
    | none => simp [deleteEntryW, hcond, h1, storeDoseAt]
    | some de =>
      cases h2 : objGet medicationId de with
      | none => simp [deleteEntryW, hcond, h1, h2, storeDoseAt, padSet_get_self]
      | some me =>
        by_cases hany : (padSet di none me.doses).any (fun o => o.isSome) = true
        · have hne := objSet_ne_nil medicationId
            ({ doses := padSet di none me.doses } : MedEntry) de
          simp [deleteEntryW, hcond, h1, h2, hany, hne, storeDoseAt,
            objGet_objSet_self, padSet_get_self]
        · by_cases hnil : objDel medicationId de = []
          · simp [deleteEntryW, hcond, h1, h2, hany, hnil, storeDoseAt, objGet_objDel_self]
          · simp [deleteEntryW, hcond, h1, h2, hany, hnil, storeDoseAt,
              objGet_objSet_self, objGet_objDel_self]
  · intro de me h1 h2 hany
    constructor
    · by_cases hnil : objDel medicationId de = []
      · simp [deleteEntryW, hcond, h1, h2, hany, hnil, objGet_objDel_self]
      · simp [deleteEntryW, hcond, h1, h2, hany, hnil,
          objGet_objSet_self, objGet_objDel_self]
    · intro hnil
      simp [deleteEntryW, hcond, h1, h2, hany, hnil, getData, objGet_objDel_self]

/-- Witness instantiating DELETE /api/entry on a concrete store holding a
single recorded dose: the call succeeds, the slot holds no dose afterwards,
and the emptied day key disappears from a subsequent GET /api/data. -/
theorem deleteEntryW_nulls_slot_and_cascades_witness :
    (deleteEntryW exStore "2024-01-06" "m1" 0).1 = .success
    ∧ (storeDoseAt (deleteEntryW exStore "2024-01-06" "m1" 0).2 "2024-01-06" "m1" 0).getD none
        = none
    ∧ objGet "2024-01-06" (getData (deleteEntryW exStore "2024-01-06" "m1" 0).2).entries
        = none :=
  ⟨(deleteEntryW_nulls_slot_and_cascades exStore "2024-01-06" "m1" 0
      (by decide) (by decide)).1,
   (deleteEntryW_nulls_slot_and_cascades exStore "2024-01-06" "m1" 0
      (by decide) (by decide)).2.2.1,
   ((deleteEntryW_nulls_slot_and_cascades exStore "2024-01-06" "m1" 0
      (by decide) (by decide)).2.2.2
      [("m1", { doses := [some exDose] })] { doses := [some exDose] }
      (by decide) (by decide) (by decide)).2 (by decide)⟩

theorem entriesTight_applyW (o : WOp) (s : Store) (h : entriesTight s) :
    entriesTight (applyW o s) := by
  have hday : ∀ date de, objGet date s.entries = some de →
      ∀ q ∈ de, medHasDose q.2 = true :=
    fun date de hg q hq => (h (date, de) (objGet_mem _ _ _ hg)).2 q hq
  cases o with
  | opGetData => exact h
  | opPostMedications meds =>
    intro p hp
    exact h p (by simpa [applyW, postMedications] using hp)
  | opDeleteMedication medId =>
    by_cases hm : medId = ""
    · intro p hp
      exact h p (by simpa [applyW, deleteMedicationW, hm] using hp)
    · intro p hp
      exact h p (by simpa [applyW, deleteMedicationW, hm] using hp)
  | opPostEntry date medId taken ts di now =>
    by_cases hdate : date = ""
    · intro p hp
      exact h p (by simpa [applyW, postEntry, hdate] using hp)
    · have hentries0 : ∀ q ∈ (objGet date s.entries).getD [], medHasDose q.2 = true := by
        cases hg : objGet date s.entries with
        | none => simp
        | some de => simpa using hday date de hg
      intro p hp
      simp only [applyW, postEntry, hdate, if_false] at hp
      rcases mem_objSet _ _ _ p hp with h1 | h1
      · subst h1
        refine ⟨objSet_ne_nil _ _ _, ?_⟩
        intro q hq
        rcases mem_objSet _ _ _ q hq with h2 | h2
        · subst h2
          exact any_isSome_of_getElem? _ _ _ (padSet_get_self _ _ _)
        · exact hentries0 q h2
      · exact h p h1
  | opPutEntry date medId ts di =>
    by_cases hval : date = "" ∨ medId = "" ∨ ts = ""
    · intro p hp
      exact h p (by simpa [applyW, putEntry, hval] using hp)
    · cases h1 : objGet date s.entries with
      | none =>
        intro p hp
        exact h p (by simpa [applyW, putEntry, hval, h1] using hp)
      | some de =>
        cases h2 : objGet medId de with
        | none =>
          intro p hp
          exact h p (by simpa [applyW, putEntry, hval, h1, h2] using hp)
        | some me =>
          cases h3 : (me.doses[di.getD 0]?).getD none with
          | none =>
            intro p hp
            exact h p (by simpa [applyW, putEntry, hval, h1, h2, h3] using hp)
          | some d =>
            have h4 : me.doses[di.getD 0]? = some (some d) := by
              cases h5 : me.doses[di.getD 0]? with
              | none => rw [h5] at h3; simp at h3
              | some o =>
                rw [h5] at h3
                simp at h3
                rw [h3]
            have hlt : di.getD 0 < me.doses.length :=
              (List.getElem?_eq_some_iff.1 h4).1
            intro p hp
            simp only [applyW, putEntry, hval, h1, h2, h3, if_false] at hp
            rcases mem_objSet _ _ _ p hp with hq1 | hq1
            · subst hq1
              refine ⟨objSet_ne_nil _ _ _, ?_⟩
              intro q hq
              rcases mem_objSet _ _ _ q hq with hq2 | hq2
              · subst hq2
                exact any_isSome_of_getElem? _ _ _ (List.getElem?_set_self hlt)
              · exact hday date de h1 q hq2
            · exact h p hq1
  | opDeleteEntry date medId di2 =>
    by_cases hval : date = "" ∨ medId = ""
    · intro p hp
      exact h p (by simpa [applyW, deleteEntryW, hval] using hp)
    · cases h1 : objGet date s.entries with
      | none =>
        intro p hp
        exact h p (by simpa [applyW, deleteEntryW, hval, h1] using hp)
      | some de =>
        cases h2 : objGet medId de with
        | none =>
          intro p hp
          exact h p (by simpa [applyW, deleteEntryW, hval, h1, h2] using hp)
        | some me =>
          by_cases hany : (padSet di2 none me.doses).any (fun d => d.isSome) = true
          · have hne := objSet_ne_nil medId
              ({ doses := padSet di2 none me.doses } : MedEntry) de
            intro p hp
            simp [applyW, deleteEntryW, hval, h1, h2, hany, hne] at hp
            rcases mem_objSet _ _ _ p hp with hq1 | hq1
            · subst hq1
              refine ⟨objSet_ne_nil _ _ _, ?_⟩
              intro q hq
              rcases mem_objSet _ _ _ q hq with hq2 | hq2
              · subst hq2
                exact hany
              · exact hday date de h1 q hq2
            · exact h p hq1
          · by_cases hnil : objDel medId de = []
            · intro p hp
              simp [applyW, deleteEntryW, hval, h1, h2, hany, hnil] at hp
              exact h p (mem_objDel _ _ p hp)
            · intro p hp
              simp [applyW, deleteEntryW, hval, h1, h2, hany, hnil] at hp
              rcases mem_objSet _ _ _ p hp with hq1 | hq1
              · subst hq1
                refine ⟨hnil, ?_⟩
                intro q hq
                exact hday date de h1 q (mem_objDel _ _ q hq)
              · exact h p hq1

theorem reachable_entriesTight (s : Store) (h : Reachable s) : entriesTight s := by
  induction h with
  | init => intro p hp; simp at hp
  | step o s2 _ ih => exact entriesTight_applyW o s2 ih

/-- C7: on every store state reachable by worker requests, a day-entry key
exists only while at least one medication sub-entry within it has at least
one non-null dose — each operation that would empty a day entry deletes
its key, so no stored day entry is ever dose-free. -/
theorem reachable_day_key_has_nonNull_dose (s : Store) (h : Reachable s) :
    s.entries.all (fun p => dayHasDose p.2) = true := by
  rw [List.all_eq_true]
  intro p hp
  obtain ⟨hne, hall⟩ := reachable_entriesTight s h p hp
  cases hq : p.2 with
  | nil => exact absurd hq hne
  | cons q rest =>
    have hdq : medHasDose q.2 = true := hall q (by simp [hq])
    simp only [dayHasDose, List.any_eq_true]
    exact ⟨q, by simp [hq], hdq⟩

/-- Store slice obtained from an empty slice by one POST /api/entry request. -/
def exReachableStore : Store :=
  applyW (.opPostEntry "2024-01-06" "m1" true (some "2024-01-06T08:00:00Z") (some 0) "nowIso")
    { medications := [], entries := [] }

/-- Witness instantiating the day-entry invariant on a concrete reachable
store slice. -/
theorem reachable_day_key_has_nonNull_dose_witness :
    exReachableStore.entries.all (fun p => dayHasDose p.2) = true :=
  reachable_day_key_has_nonNull_dose exReachableStore
    (Reachable.step _ _ Reachable.init)

/-- Example client state holding one medication and one recorded dose for
user Peter. -/
def exClientState : ClientState :=
  { medications := [exMed],
    entries := [("Peter", [("2024-01-06", [("m1", { doses := [some exDose] })])])] }

/-- C1 counterexample: on a concrete state with one recorded dose, a remote
failure during updateTimestamp leaves the new timestamp in local state, and
a remote failure during deleteMedication leaves the medication removed —
neither catch block restores the state that existed before the operation,
so the claimed universal rollback is false. -/
theorem updateTimestamp_and_deleteMedication_no_rollback_cex :
    (updateTimestampClient exClientState "Peter" "2024-01-06" "m1" 0
        "2024-01-06T09:30:00Z" false).1 ≠ exClientState
    ∧ (deleteMedicationClient exClientState "m1" false).1 ≠ exClientState := by
  constructor <;> decide

/-- C1 amended: on remote failure every mutating operation surfaces an alert
(clearing a dose alerts whenever the targeted dose existed), but only two
of them revert local state: addMedication pops the pushed medication
(exact rollback) and trackMedicationDose resets the touched slot to null;
deleteMedication, updateTimestamp and clearMedicationStatus keep the
optimistic local mutation — their resulting state is identical to the
remote-success state. -/
theorem mutating_ops_failure_behaviour :
    (∀ (s : ClientState) (m : Medication),
      (addMedicationClient s m false).1.medications = s.medications
      ∧ (addMedicationClient s m false).2 = true)
    ∧ (∀ (s : ClientState) (u dk mid : String) (i : Nat) (tk : Bool) (ts : String),
      clientDoseAt (trackMedicationDose s u dk mid i tk ts false).1 u dk mid i = some none
      ∧ (trackMedicationDose s u dk mid i tk ts false).2 = true)
    ∧ (∀ (s : ClientState) (mid : String),
      (deleteMedicationClient s mid false).1 = (deleteMedicationClient s mid true).1
      ∧ (deleteMedicationClient s mid false).2 = true)
    ∧ (∀ (s : ClientState) (u dk mid : String) (i : Nat) (ts : String),
      (updateTimestampClient s u dk mid i ts false).1
        = (updateTimestampClient s u dk mid i ts true).1
      ∧ (updateTimestampClient s u dk mid i ts false).2 = true)
    ∧ (∀ (s : ClientState) (u dk mid : String) (i : Nat),
      (clearMedicationStatusClient s u dk mid i false).1
        = (clearMedicationStatusClient s u dk mid i true).1
      ∧ ((clientDoseAt s u dk mid i).getD none ≠ none →
          (clearMedicationStatusClient s u dk mid i false).2 = true)) := by
  refine ⟨?_, ?_, ?_, ?_, ?_⟩
  · intro s m
    exact ⟨by simp [addMedicationClient], by simp [addMedicationClient]⟩
  · intro s u dk mid i tk ts
    have hlt : i < (padSet i (some { taken := tk, timestamp := ts })
        ((objGet mid ((objGet dk ((objGet u s.entries).getD [])).getD [])).getD
          { doses := [] }).doses).length := by
      rw [length_padSet]
      omega
    constructor
    · simp [trackMedicationDose, clientDoseAt, objGet_objSet_self,
        List.getElem?_set_self hlt]
    · simp [trackMedicationDose]
  · intro s mid
    exact ⟨by simp [deleteMedicationClient], by simp [deleteMedicationClient]⟩
  · intro s u dk mid i ts
    cases h1 : objGet u s.entries with
    | none => simp [updateTimestampClient, h1]
    | some ue =>
      cases h2 : objGet dk ue with
      | none => simp [updateTimestampClient, h1, h2]
      | some de =>
        cases h3 : objGet mid de with
        | none => simp [updateTimestampClient, h1, h2, h3]
        | some me =>
          cases h4 : (me.doses[i]?).getD none with
          | none => simp [updateTimestampClient, h1, h2, h3, h4]
          | some d => simp [updateTimestampClient, h1, h2, h3, h4]
  · intro s u dk mid i
    cases h1 : objGet u s.entries with
    | none => simp [clearMedicationStatusClient, clientDoseAt, h1]
    | some ue =>
      cases h2 : objGet dk ue with
      | none => simp [clearMedicationStatusClient, clientDoseAt, h1, h2]
      | some de =>
        cases h3 : objGet mid de with
        | none => simp [clearMedicationStatusClient, clientDoseAt, h1, h2, h3]
        | some me =>
          cases h4 : (me.doses[i]?).getD none with
          | none => simp [clearMedicationStatusClient, clientDoseAt, h1, h2, h3, h4]
          | some d => simp [clearMedicationStatusClient, clientDoseAt, h1, h2, h3, h4]

/-- C9 (code evaluated at the failing input): with one recorded taken dose
in the user-keyed entries mapping, renderStats counts zero entries — its
outer loop treats user names as date keys and finds no `doses` field one
level early — so the displayed adherence rate is 0 while the percentage of
taken doses among recorded doses is 100. -/
theorem renderStats_adherence_zero_despite_recorded_dose :
    recordedDoses exClientState.entries = 1
    ∧ takenDoses exClientState.entries = 1
    ∧ renderStatsTotals (clientEntriesToJVal exClientState.entries) = (0, 0, 0)
    ∧ renderStatsAdherence (clientEntriesToJVal exClientState.entries) = 0
    ∧ adherencePercent (takenDoses exClientState.entries)
        (recordedDoses exClientState.entries) = 100 :=
  ⟨rfl, rfl, rfl, rfl, rfl⟩
